import Mathlib

/-!
Shallow embedding of the replication-aware cache client in
`src/django_redis/client/default.py` (class `DefaultClient`), together with
proofs about the claims on its specification.

Conventions of the embedding:
- Byte strings at the value-codec boundary are modelled as `List Char`.
- Python `random.choice` / `random.randint` are modelled by an explicit
  oracle `pick : Nat`, reduced modulo the size of the candidate range, so
  every possible random outcome is covered by quantifying over `pick`.
- The Python runtime's `int(...)` truncation of a float toward zero is
  modelled on rationals by `pyInt`.
- A raised `ConnectionInterrupted` is the `connInterrupted` outcome; a
  raised `ValueError` / `TypeError` in the counter fallback is an explicit
  outcome constructor.
-/

/-! ## ValueCodec: `DefaultClient.encode` / `DefaultClient.decode` -/

/-- Application-level values as seen by `encode`: Python booleans, non-bool
integers, and everything else (opaque payloads of type `α`).  This mirrors the
`isinstance(value, bool)` / `isinstance(value, int)` dispatch in the source. -/
inductive Value (α : Type) where
  | vbool : Bool → Value α
  | vint : Int → Value α
  | vother : α → Value α
deriving DecidableEq

/-- The pluggable serializer collaborator: `dumps`/`loads` on whole values
(`django_redis.serializers.*`). -/
structure Serializer (α : Type) where
  dumps : Value α → List Char
  loads : List Char → Value α

/-- The pluggable compressor collaborator (`django_redis.compressors.*`).
`decompress` returns `.error ()` for the recoverable `CompressorError`
("value was not compressed") signal. -/
structure Compressor where
  compress : List Char → List Char
  decompress : List Char → Except Unit (List Char)

/-- The `try: decompress value; except CompressorError: pass` block of
`DefaultClient.decode`: a failed decompression passes the bytes through. -/
def decompressOr (C : Compressor) (bs : List Char) : List Char :=
  match C.decompress bs with
  | .ok b => b
  | .error _ => bs

/-- Accumulate decimal digits, as `int` does on a digit string. -/
def digitsToNat (l : List Char) : Nat :=
  l.foldl (fun a c => 10 * a + (c.toNat - 48)) 0

/-- Modelled from the spec: the Python builtin `int(value)` applied to a byte
string ("attempt to parse `stored` as an integer literal").  Surrounding ASCII
whitespace is stripped; an optional single sign is followed by a nonempty run
of decimal digits; anything else raises `ValueError`, modelled as `none`. -/
def parseIntBytes (s : List Char) : Option Int :=
  let t := ((s.dropWhile Char.isWhitespace).reverse.dropWhile Char.isWhitespace).reverse
  match t with
  | [] => none
  | c :: rest =>
    if c = '-' then
      if rest ≠ [] ∧ rest.all Char.isDigit then some (-(digitsToNat rest : Int)) else none
    else if c = '+' then
      if rest ≠ [] ∧ rest.all Char.isDigit then some ((digitsToNat rest : Int)) else none
    else if (c :: rest).all Char.isDigit then some ((digitsToNat (c :: rest) : Int)) else none

/-- `DefaultClient.encode`: booleans and non-integers are serialized then
compressed; a non-boolean integer is returned unmodified. -/
def encode (S : Serializer α) (C : Compressor) : Value α → Sum (List Char) Int
  | .vint n => .inr n
  | v => .inl (C.compress (S.dumps v))

/-- `DefaultClient.decode`: first try `int(value)` (an `int` input parses as
itself; a byte input is parsed as an integer literal); on failure, try to
decompress (treating `CompressorError` as pass-through) and deserialize. -/
def decode (S : Serializer α) (C : Compressor) : Sum (List Char) Int → Value α
  | .inr n => .vint n
  | .inl bs =>
    match parseIntBytes bs with
    | some n => .vint n
    | none => S.loads (decompressOr C bs)

/-! ## ReplicaSelector: `DefaultClient.get_next_client_index` -/

/-- The list comprehension `[i for i in range(0, len(self._server)) if i not in tried]`. -/
def not_tried_list (N : Nat) (tried : List Nat) : List Nat :=
  (List.range N).filter (fun i => decide (i ∉ tried))

/-- `DefaultClient.get_next_client_index`.  `N` is `len(self._server)`;
`pick` is the random oracle: `random.choice(not_tried)` is modelled as the
element at position `pick % len(not_tried)` (`none` models the `IndexError`
that `random.choice` raises on an empty candidate list), and
`random.randint(1, N - 1)` as `1 + pick % (N - 1)`. -/
def get_next_client_index (N : Nat) (write : Bool) (tried : List Nat) (pick : Nat) : Option Nat :=
  if tried ≠ [] ∧ tried.length < N then
    (not_tried_list N tried)[pick % (not_tried_list N tried).length]?
  else if write ∨ N = 1 then some 0
  else some (1 + pick % (N - 1))

/-! ## KeyCodec: `glob_escape`, `make_key`, `make_pattern` -/

/-- The effect of `special_re.sub(r"[\1]", s)` on one character: each of
`*`, `?`, `[` is wrapped in a one-character bracket class. -/
def escapeChar (c : Char) : List Char :=
  if c = '*' ∨ c = '?' ∨ c = '[' then ['[', c, ']'] else [c]

/-- `glob_escape`: regex-substitute every occurrence of `*`, `?` or `[` by
its bracket-class form, leaving all other characters untouched. -/
def glob_escape (s : String) : String :=
  String.mk (s.data.map escapeChar).flatten

/-- The backend-defaults collaborator: resolved `key_prefix` (here `keyPre`)
and `version` used when the caller passes `None`. -/
structure Backend where
  keyPre : String
  version : Nat

/-- Modelled from the spec: the backend collaborator's
`key_func(key, prefix, version)`, composing `prefix + ":" + version + ":" + key`
(the source delegates to `self._backend.key_func`, which is outside `src/`). -/
def key_func (key pre ver : String) : String :=
  pre ++ ":" ++ ver ++ ":" ++ key

/-- `DefaultClient.make_key` on a plain (non-`CacheKey`) string key. -/
def make_key (b : Backend) (key : String) (ver : Option Nat) (pre : Option String) : String :=
  key_func key (pre.getD b.keyPre) (toString (ver.getD b.version))

/-- `DefaultClient.make_pattern` on a plain (non-`CacheKey`) pattern:
glob-escape the resolved prefix and the stringified resolved version, leave
the pattern fragment untouched, then compose with `key_func`. -/
def make_pattern (b : Backend) (pat : String) (ver : Option Nat) (pre : Option String) : String :=
  key_func pat (glob_escape (pre.getD b.keyPre)) (glob_escape (toString (ver.getD b.version)))

/-! ## The wire-level store and command trace -/

/-- The remote keyspace, as an association list from (already namespaced)
string keys to entries. -/
abbrev Store (α : Type) := List (String × α)

def storeHasKey (s : Store α) (k : String) : Bool :=
  (s.lookup k).isSome

def storeDel (s : Store α) (k : String) : Store α :=
  s.filter (fun e => decide (e.1 ≠ k))

def storeSet (s : Store α) (k : String) (v : α) : Store α :=
  (k, v) :: storeDel s k

/-- Wire commands issued by the client, recorded for trace-based claims.
`idx` is the server index the command went to (`none` when the caller
supplied a pinned connection). -/
inductive Cmd (α : Type) where
  | setCmd (idx : Option Nat) (key : String) (val : α) (px : Option Int) (nx xx : Bool)
  | existsCmd (idx : Option Nat) (key : String)
  | delCmd (idx : Option Nat) (key : String)
  | mgetCmd (keys : List String)
deriving DecidableEq

def isSetCmd : Cmd α → Bool
  | .setCmd _ _ _ _ _ _ => true
  | _ => false

/-- Result of `DefaultClient.set`: the returned boolean, or a raised
`ConnectionInterrupted`. -/
inductive SetOutcome where
  | ret (b : Bool)
  | connInterrupted
deriving DecidableEq

/-- Python `int(x)` truncation toward zero, on rationals. -/
def pyInt (q : ℚ) : Int :=
  if 0 ≤ q then ⌊q⌋ else ⌈q⌉

/-- `DefaultClient.has_key` when no transport failure occurs: one `EXISTS`
command, `client.exists(key) == 1`. -/
def has_key_model (s : Store α) (idx : Option Nat) (k : String) : Bool × List (Cmd β) :=
  (storeHasKey s k, [Cmd.existsCmd idx k])

/-- `DefaultClient.delete` when no transport failure occurs: one `DEL`
command returning the number of removed keys. -/
def delete_model (s : Store α) (idx : Option Nat) (k : String) : Nat × Store α × List (Cmd β) :=
  ((if storeHasKey s k then 1 else 0), storeDel s k, [Cmd.delCmd idx k])

/-- The server semantics of `client.set(nkey, nvalue, nx=nx, px=timeout, xx=xx)`:
with `nx`, only set when absent; with `xx`, only set when present; return
whether the set took effect. -/
def redisSet (s : Store (α × Option Int)) (k : String) (v : α) (nx xx : Bool)
    (px : Option Int) : Bool × Store (α × Option Int) :=
  if storeHasKey s k then
    if nx then (false, s) else (true, storeSet s k (v, px))
  else
    if xx then (false, s) else (true, storeSet s k (v, px))

/-! ## CacheOperations: the `DefaultClient.set` retry loop

`setLoop` is the body of the `while True:` loop of `DefaultClient.set`,
with the loop expressed as fuel-bounded recursion (`none` = out of fuel, or
the `IndexError` of `random.choice` on an empty candidate list).  State
threaded exactly as the Python locals: `timeout` (note: the source reassigns
`timeout = int(timeout * 1000)` inside the loop body, so the already
converted value is converted again on a retry), `tried`, and the current
attempt number (used only to address the failure and random oracles).
`origClient` is `original_client is not None`; `fails attempt` says whether
the `client.set` command of that attempt raises one of `_main_exceptions`;
`rro` is `self._replica_read_only`. -/
def setLoop (N : Nat) (rro origClient : Bool) (fails : Nat → Bool) (pick : Nat → Nat)
    (key : String) (val : α) (nx xx : Bool) :
    Nat → Option ℚ → List Nat → Nat → Store (α × Option Int) → List (Cmd α) →
    Option (SetOutcome × Store (α × Option Int) × List (Cmd α))
  | 0, _, _, _, _, _ => none
  | fuel + 1, timeout, tried, attempt, store, trace =>
    match (if origClient then some none
           else (get_next_client_index N true tried (pick attempt)).map some :
           Option (Option Nat)) with
    | none => none
    | some idx =>
      match timeout.map (fun t => pyInt (t * 1000)) with
      | some m =>
        if m ≤ 0 then
          if nx then
            let hk : Bool × List (Cmd α) := has_key_model store idx key
            some (.ret (!hk.1), store, trace ++ hk.2)
          else
            let d : Nat × Store (α × Option Int) × List (Cmd α) := delete_model store idx key
            some (.ret (decide (d.1 ≠ 0)), d.2.1, trace ++ d.2.2)
        else
          if fails attempt then
            if origClient = false ∧ rro = false ∧ tried.length < N then
              setLoop N rro origClient fails pick key val nx xx fuel
                (some ((m : Int) : ℚ)) (tried ++ [idx.getD 0]) (attempt + 1) store
                (trace ++ [Cmd.setCmd idx key val (some m) nx xx])
            else
              some (.connInterrupted, store, trace ++ [Cmd.setCmd idx key val (some m) nx xx])
          else
            some (.ret (redisSet store key val nx xx (some m)).1,
              (redisSet store key val nx xx (some m)).2,
              trace ++ [Cmd.setCmd idx key val (some m) nx xx])
      | none =>
        if fails attempt then
          if origClient = false ∧ rro = false ∧ tried.length < N then
            setLoop N rro origClient fails pick key val nx xx fuel
              none (tried ++ [idx.getD 0]) (attempt + 1) store
              (trace ++ [Cmd.setCmd idx key val none nx xx])
          else
            some (.connInterrupted, store, trace ++ [Cmd.setCmd idx key val none nx xx])
        else
          some (.ret (redisSet store key val nx xx none).1,
            (redisSet store key val nx xx none).2,
            trace ++ [Cmd.setCmd idx key val none nx xx])

/-! ## `DefaultClient.ttl` and the `_incr` fallback path -/

/-- `DefaultClient.ttl` when no transport failure occurs.  `keyExists` is the
result of `client.exists(key)`, `rawTtl` the raw value of `client.ttl(key)`
(`-1` = no expiration, `-2` = key vanished between the two commands).
Returns `none` for Python `None` ("non volatile key"). -/
def ttl_model (keyExists : Bool) (rawTtl : Int) : Option Int :=
  if !keyExists then some 0
  else if 0 ≤ rawTtl then some rawTtl
  else if rawTtl = -1 then none
  else if rawTtl = -2 then some 0
  else none

/-- Outcome of the `except ResponseError:` fallback block of
`DefaultClient._incr`. -/
inductive IncrOutcome where
  | ok (n : Int)
  | valueErrorNotFound
  | typeErrorNonePlusInt
deriving DecidableEq

/-- The `except ResponseError:` fallback of `DefaultClient._incr`: read the
TTL through `self.ttl`; raise `ValueError` ("not found") when it equals `-2`;
otherwise `self.get(key) + delta` — with `stored = none` (absent key) the
Python expression `None + delta` raises `TypeError`.  The concluding
`self.set(key, value, timeout)` re-store is elided: the claim under study
concerns only the not-found branch. -/
def incr_fallback (keyExists : Bool) (rawTtl : Int) (stored : Option Int) (delta : Int) :
    IncrOutcome :=
  if ttl_model keyExists rawTtl = some (-2) then .valueErrorNotFound
  else
    match stored with
    | none => .typeErrorNonePlusInt
    | some v => .ok (v + delta)

/-! ## `DefaultClient.get_many` -/

/-- One `OrderedDict` assignment `d[k] = v`: an existing key keeps its
position and gets the new value, a fresh key is appended. -/
def odInsert (l : List (String × String)) (k v : String) : List (String × String) :=
  if (l.lookup k).isSome then l.map (fun e => if e.1 = k then (k, v) else e)
  else l ++ [(k, v)]

/-- `DefaultClient.get_many`: empty input short-circuits to an empty
`OrderedDict`; otherwise build the namespaced-to-original key map, issue one
`MGET` (which may raise, per `mgetFails`), and decode every present result. -/
def get_many (b : Backend) (dec : α → β) (store : Store α) (keys : List String)
    (ver : Option Nat) (mgetFails : Bool) :
    Except Unit (List (String × β)) × List (Cmd α) :=
  if keys = [] then (.ok [], [])
  else
    let mk := keys.foldl (fun acc k => odInsert acc (make_key b k ver none) k) []
    if mgetFails then (.error (), [Cmd.mgetCmd (mk.map Prod.fst)])
    else
      (.ok (mk.filterMap (fun e => (store.lookup e.1).map (fun v => (e.2, dec v)))),
       [Cmd.mgetCmd (mk.map Prod.fst)])


/-! ## Helper lemmas -/

theorem pyInt_intCast (n : Int) : pyInt ((n : ℚ)) = n := by
  unfold pyInt
  rcases le_or_lt 0 n with h | h
  · rw [if_pos (by exact_mod_cast h), Int.floor_intCast]
  · rw [if_neg (not_le.mpr (by exact_mod_cast h)), Int.ceil_intCast]

theorem not_tried_ne_nil (N : Nat) (tried : List Nat) (h : tried.length < N) :
    not_tried_list N tried ≠ [] := by
  intro hemp
  have hall : ∀ i, i < N → i ∈ tried := by
    intro i hi
    by_contra hc
    have hmem : i ∈ not_tried_list N tried := by
      simp [not_tried_list, List.mem_filter, List.mem_range, hi, hc]
    rw [hemp] at hmem
    exact (List.not_mem_nil i) hmem
  have hsub : Finset.range N ⊆ tried.toFinset := by
    intro i hi
    rw [List.mem_toFinset]
    exact hall i (Finset.mem_range.mp hi)
  have h1 : N ≤ tried.toFinset.card := by
    simpa [Finset.card_range] using Finset.card_le_card hsub
  have h2 : tried.toFinset.card ≤ tried.length := tried.toFinset_card_le
  omega

theorem gnci_mem (N : Nat) (w : Bool) (tried : List Nat) (pick : Nat)
    (h1 : tried ≠ []) (h2 : tried.length < N) :
    ∃ i, get_next_client_index N w tried pick = some i ∧ i < N ∧ i ∉ tried := by
  have hne := not_tried_ne_nil N tried h2
  have hlen : 0 < (not_tried_list N tried).length := List.length_pos.mpr hne
  have hm : pick % (not_tried_list N tried).length < (not_tried_list N tried).length :=
    Nat.mod_lt _ hlen
  refine ⟨(not_tried_list N tried)[pick % (not_tried_list N tried).length], ?_, ?_⟩
  · unfold get_next_client_index
    rw [if_pos ⟨h1, h2⟩]
    exact List.getElem?_eq_getElem hm
  · have hmem := List.getElem_mem hm
    have hsplit := List.mem_filter.mp hmem
    exact ⟨List.mem_range.mp hsplit.1, by simpa using hsplit.2⟩

theorem lookup_storeDel (s : Store α) (k k2 : String) :
    (storeDel s k).lookup k2 = if k2 = k then none else s.lookup k2 := by
  induction s with
  | nil => simp [storeDel]
  | cons e t ih =>
    obtain ⟨a, b⟩ := e
    by_cases hak : a = k
    · have hdel : storeDel ((a, b) :: t) k = storeDel t k := by
        simp [storeDel, List.filter_cons, hak]
      rw [hdel, ih]
      by_cases h2 : k2 = a
      · simp [List.lookup, h2, hak]
      · have hba : (k2 == a) = false := by simp [h2]
        have hk2k : ¬ (k2 = k) := fun hh => h2 (by rw [hh, hak])
        simp [List.lookup, hba, hk2k]
    · have hdel : storeDel ((a, b) :: t) k = (a, b) :: storeDel t k := by
        simp [storeDel, List.filter_cons, hak]
      rw [hdel]
      by_cases h2 : k2 = a
      · have hk2k : ¬ (k2 = k) := by
          rw [h2]
          exact hak
        simp [List.lookup, h2, hk2k, hak]
      · have hba : (k2 == a) = false := by simp [h2]
        simp [List.lookup, hba, ih]

/-! ## Claim theorems -/

/-- C8: for every pattern, prefix and version, `make_pattern` composes the
search key from the glob-escaped prefix and glob-escaped stringified version
while leaving the caller-supplied pattern fragment un-escaped; `glob_escape`
is a homomorphism on concatenation that wraps each of `*`, `?`, `[` in a
one-character bracket class and leaves every other character untouched
(witnessed by the spec's example `a*b?c[d`). -/
theorem make_pattern_composition (b : Backend) (pat : String) (ver : Option Nat)
    (pre : Option String) (s t : String) (c : Char) :
    make_pattern b pat ver pre
      = glob_escape (pre.getD b.keyPre) ++ ":"
          ++ glob_escape (toString (ver.getD b.version)) ++ ":" ++ pat
    ∧ glob_escape (s ++ t) = glob_escape s ++ glob_escape t
    ∧ glob_escape (String.mk [c])
        = (if c = '*' ∨ c = '?' ∨ c = '[' then String.mk ['[', c, ']'] else String.mk [c])
    ∧ glob_escape "a*b?c[d" = "a[*]b[?]c[[]d" := by
  refine ⟨rfl, ?_, ?_, by decide⟩
  · cases s with
    | mk a =>
      cases t with
      | mk d =>
        show String.mk (((a ++ d).map escapeChar).flatten)
          = String.mk ((a.map escapeChar).flatten ++ (d.map escapeChar).flatten)
        rw [List.map_append, List.flatten_append]
  · by_cases h : c = '*' ∨ c = '?' ∨ c = '[' <;> simp [glob_escape, escapeChar, h]

/-- C10: `get_many` on an empty key collection returns an empty ordered
mapping with an empty command trace — no `MGET` is issued, and the result is
`.ok` (never the `ConnectionInterrupted` outcome) even when the underlying
multi-get would fail. -/
theorem get_many_empty_noop (b : Backend) (dec : α → β) (store : Store α)
    (ver : Option Nat) (mgetFails : Bool) :
    get_many b dec store [] ver mgetFails = (.ok [], []) := rfl

/-- C3 (code bug): `DefaultClient.ttl` never returns `-2` (a missing key is
mapped to `0` before the `-2` comparison can see it), so the fallback path
of `_incr` can never take its `ValueError` ("not found") branch; on a key
that is absent when the TTL is read, it instead proceeds to the client-side
read-modify-write and crashes with `TypeError` on `None + delta` —
contradicting the claim that it fails as not-found. -/
theorem incr_fallback_not_found_unreachable :
    (∀ (e : Bool) (r : Int), ttl_model e r ≠ some (-2))
    ∧ (∀ (e : Bool) (r : Int) (st : Option Int) (d : Int),
        incr_fallback e r st d ≠ .valueErrorNotFound)
    ∧ incr_fallback false (-2) none 1 = .typeErrorNonePlusInt := by
  have h1 : ∀ (e : Bool) (r : Int), ttl_model e r ≠ some (-2) := by
    intro e r
    cases e with
    | false => simp [ttl_model]
    | true =>
      simp only [ttl_model, Bool.not_true, Bool.false_eq_true, if_false]
      split_ifs with ha hb hc
      · simp
        omega
      · simp
      · simp
      · simp
  refine ⟨h1, ?_, rfl⟩
  intro e r st d
  unfold incr_fallback
  rw [if_neg (h1 e r)]
  cases st <;> simp

/-- C5: the replica-selection contract of `get_next_client_index`: with one
server, both reads and writes select index 0 for any tried list; with more
than one server and nothing tried, writes select 0 and reads select an index
in `[1, N-1]`; with a non-empty tried list shorter than the server count,
the selected index avoids the tried list. -/
theorem replica_selection_contract (N : Nat) (w : Bool) (tried : List Nat) (pick : Nat) :
    (get_next_client_index 1 w tried pick = some 0)
    ∧ (1 < N → get_next_client_index N true [] pick = some 0)
    ∧ (1 < N → ∃ i, get_next_client_index N false [] pick = some i ∧ 1 ≤ i ∧ i ≤ N - 1)
    ∧ (tried ≠ [] → tried.length < N →
        ∃ i, get_next_client_index N w tried pick = some i ∧ i ∉ tried) := by
  refine ⟨?_, ?_, ?_, ?_⟩
  · have hc : ¬ (tried ≠ [] ∧ tried.length < 1) := by
      rintro ⟨hne, hl⟩
      exact hne (List.eq_nil_of_length_eq_zero (Nat.lt_one_iff.mp hl))
    unfold get_next_client_index
    rw [if_neg hc, if_pos (Or.inr rfl)]
  · intro _
    unfold get_next_client_index
    rw [if_neg (by simp), if_pos (Or.inl rfl)]
  · intro hN
    refine ⟨1 + pick % (N - 1), ?_, Nat.le_add_right 1 _, ?_⟩
    · unfold get_next_client_index
      rw [if_neg (by simp), if_neg (by simp; omega)]
    · have : pick % (N - 1) < N - 1 := Nat.mod_lt _ (by omega)
      omega
  · intro h1 h2
    obtain ⟨i, hi, _, hnot⟩ := gnci_mem N w tried pick h1 h2
    exact ⟨i, hi, hnot⟩

/-- C5 witness: the contract instantiated at `N = 2`, `tried = [0]`,
`pick = 0`: reads go to index 1 with no prior failures, and retries avoid
the tried index. -/
theorem replica_selection_contract_witness :
    (get_next_client_index 1 false [5] 0 = some 0)
    ∧ (get_next_client_index 2 true [] 0 = some 0)
    ∧ (∃ i, get_next_client_index 2 false [] 0 = some i ∧ 1 ≤ i ∧ i ≤ 2 - 1)
    ∧ (∃ i, get_next_client_index 2 false [0] 0 = some i ∧ i ∉ [0]) := by
  refine ⟨(replica_selection_contract 2 false [5] 0).1,
    (replica_selection_contract 2 true [] 0).2.1 (by decide),
    (replica_selection_contract 2 false [] 0).2.2.1 (by decide),
    (replica_selection_contract 2 false [0] 0).2.2.2 (by decide) (by decide)⟩

/-- C9 (implicit): selection totality: for at least one server and any tried
list of in-range indices, `get_next_client_index` returns `some` index in
`[0, N-1]`; moreover whenever the random-choice branch is taken (non-empty
tried list shorter than the server count) its candidate list is non-empty,
so the `IndexError` branch of `random.choice` (modelled by `none`) is
unreachable. -/
theorem replica_selection_total (N : Nat) (w : Bool) (tried : List Nat) (pick : Nat)
    (hN : 1 ≤ N) (hT : ∀ i ∈ tried, i < N) :
    (∃ i, get_next_client_index N w tried pick = some i ∧ i < N)
    ∧ (tried ≠ [] → tried.length < N → not_tried_list N tried ≠ []) := by
  constructor
  · by_cases hb1 : tried ≠ [] ∧ tried.length < N
    · obtain ⟨i, hi, hlt, _⟩ := gnci_mem N w tried pick hb1.1 hb1.2
      exact ⟨i, hi, hlt⟩
    · by_cases hb2 : (w : Prop) ∨ N = 1
      · refine ⟨0, ?_, by omega⟩
        unfold get_next_client_index
        rw [if_neg hb1, if_pos hb2]
      · have hN2 : 2 ≤ N := by
          rcases Nat.lt_or_ge N 2 with h | h
          · interval_cases N
            exact absurd (Or.inr rfl) hb2
          · exact h
        refine ⟨1 + pick % (N - 1), ?_, ?_⟩
        · unfold get_next_client_index
          rw [if_neg hb1, if_neg hb2]
        · have : pick % (N - 1) < N - 1 := Nat.mod_lt _ (by omega)
          omega
  · intro _ h2
    exact not_tried_ne_nil N tried h2

/-- C9 witness: totality instantiated at `N = 3`, `tried = [0, 2]`,
`pick = 7`. -/
theorem replica_selection_total_witness :
    (∃ i, get_next_client_index 3 false [0, 2] 7 = some i ∧ i < 3)
    ∧ ([0, 2] ≠ ([] : List Nat) → ([0, 2] : List Nat).length < 3 →
        not_tried_list 3 [0, 2] ≠ []) :=
  replica_selection_total 3 false [0, 2] 7 (by decide) (by decide)

/-- C2 (code bug): `set` reassigns `timeout = int(timeout * 1000)` inside the
retry loop, so on a replica-failover retry the already-converted millisecond
value is multiplied by 1000 again: with a requested timeout of 1 second and
one failed attempt, the first issued set carries `px = 1000` but the retry
carries `px = 1000000 ≠ int(1 * 1000)`, contradicting the claim that every
issued set carries `int(t * 1000)`. -/
theorem set_retry_double_converts_timeout :
    setLoop 2 false false (fun a => decide (a = 0)) (fun _ => 0) "k" () false false 3
        (some 1) [] 0 [] []
      = some (.ret true, [("k", ((), some 1000000))],
          [Cmd.setCmd (some 0) "k" () (some 1000) false false,
           Cmd.setCmd (some 1) "k" () (some 1000000) false false])
    ∧ (1000000 : Int) ≠ pyInt ((1 : ℚ) * 1000) := by
  constructor
  · norm_num [setLoop, get_next_client_index, not_tried_list, pyInt,
      redisSet, storeHasKey, storeSet, storeDel, List.filter, List.range_succ]
  · norm_num [pyInt]

/-- C4 counterexample: with a single configured server (`N = 1`), writable
replicas and a failing command, the failure of index 0 is recorded in
`tried`, yet the retry selects index 0 again (the trace shows the set issued
twice to index 0) — refuting "the failed index is never reselected in the
same call". -/
theorem set_retry_reselects_failed_index :
    setLoop 1 false false (fun _ => true) (fun _ => 0) "k" () false false 3 none [] 0 [] []
      = some (.connInterrupted, ([] : Store (Unit × Option Int)),
          [Cmd.setCmd (some 0) "k" () none false false,
           Cmd.setCmd (some 0) "k" () none false false]) := by
  norm_num [setLoop, get_next_client_index, not_tried_list, List.filter, List.range_succ]

/-- C4 (amended): on a transport failure of the issued set command, `set`
retries with a fresh selection exactly when the caller supplied no explicit
connection, replicas are not read-only, and the `tried` list is still
shorter than the server count; the failed index is appended to `tried`, and
any later selection avoids all recorded indices as long as fewer than all
indices are recorded (once `tried` covers every index, one final retry falls
back to index 0, which may be a previously failed index — see the
counterexample); when the conditions fail, the original failure is surfaced
as a `ConnectionInterrupted`. -/
theorem set_retry_policy (N : Nat) (rro origClient : Bool) (fails : Nat → Bool)
    (pick : Nat → Nat) (key : String) (val : α) (nx xx : Bool) (fuel : Nat)
    (timeout : Option ℚ) (tried : List Nat) (attempt : Nat)
    (store : Store (α × Option Int)) (trace : List (Cmd α)) (idx : Option Nat)
    (hfail : fails attempt = true)
    (hidx : (if origClient then some none
             else (get_next_client_index N true tried (pick attempt)).map some) = some idx)
    (hms : ∀ m : ℚ, timeout = some m → 0 < pyInt (m * 1000)) :
    (setLoop N rro origClient fails pick key val nx xx (fuel + 1) timeout tried attempt store trace
      = if origClient = false ∧ rro = false ∧ tried.length < N then
          setLoop N rro origClient fails pick key val nx xx fuel
            (timeout.map (fun t => ((pyInt (t * 1000) : Int) : ℚ)))
            (tried ++ [idx.getD 0]) (attempt + 1) store
            (trace ++ [Cmd.setCmd idx key val (timeout.map (fun t => pyInt (t * 1000))) nx xx])
        else
          some (.connInterrupted, store,
            trace ++ [Cmd.setCmd idx key val (timeout.map (fun t => pyInt (t * 1000))) nx xx]))
    ∧ (∀ (w : Bool) (tr : List Nat) (p j : Nat), tr ≠ [] → tr.length < N →
        get_next_client_index N w tr p = some j → j ∉ tr) := by
  constructor
  · cases origClient with
    | true =>
      have hidx' : idx = none := by simpa using hidx.symm
      subst hidx'
      cases timeout with
      | none =>
        simp only [setLoop, if_pos rfl, Option.map_none', hfail, if_true]
      | some m =>
        have hpos := hms m rfl
        simp only [setLoop, if_pos rfl, Option.map_some', hfail, if_true]
        rw [if_neg (by omega)]
    | false =>
      obtain ⟨j, hj, hfj⟩ := Option.map_eq_some'.mp (by simpa using hidx)
      subst hfj
      cases timeout with
      | none =>
        simp only [setLoop, Bool.false_eq_true, if_false, hj, Option.map_some',
          Option.map_none', hfail, if_true, Option.getD_some]
      | some m =>
        have hpos := hms m rfl
        simp only [setLoop, Bool.false_eq_true, if_false, hj, Option.map_some', hfail, if_true,
          Option.getD_some]
        rw [if_neg (by omega)]
  · intro w tr p j h1 h2 hj
    obtain ⟨i, hi, _, hnot⟩ := gnci_mem N w tr p h1 h2
    have : i = j := Option.some.inj (hi.symm.trans hj)
    subst this
    exact hnot

/-- C4 witness for the amended retry-policy theorem: the concrete failing
first attempt at `N = 2` retries with index 0 recorded in `tried`. -/
theorem set_retry_policy_witness :
    setLoop 2 false false (fun _ => true) (fun _ => 0) "k" () false false 2 none [] 0 [] []
      = setLoop 2 false false (fun _ => true) (fun _ => 0) "k" () false false 1 none [0] 1 []
          [Cmd.setCmd (some 0) "k" () none false false] := by
  have h := (set_retry_policy 2 false false (fun _ => true) (fun _ => 0) "k" () false false 1
    none [] 0 [] [] (some 0) rfl (by decide) (fun m hm => nomatch hm)).1
  rw [if_pos ⟨rfl, rfl, by decide⟩] at h
  simpa using h

/-- C6: `set(k, v, ttl=0)` with `nx = false`, `xx = false` behaves
identically to `delete(k)`: the call returns whether a deletion occurred,
mutates the store exactly as `delete` does (removing only `k`), issues the
single `DEL` command of `delete` and no set command. -/
theorem set_zero_ttl_equals_delete (N : Nat) (rro origClient : Bool) (fails : Nat → Bool)
    (pick : Nat → Nat) (key : String) (val : α) (store : Store (α × Option Int)) (fuel : Nat) :
    (setLoop N rro origClient fails pick key val false false (fuel + 1) (some 0) [] 0 store []
      = some (.ret (storeHasKey store key), storeDel store key,
          [Cmd.delCmd (if origClient then none else some 0) key]))
    ∧ ((delete_model store (if origClient then none else some 0) key
          : Nat × Store (α × Option Int) × List (Cmd α))
        = ((if storeHasKey store key then 1 else 0), storeDel store key,
           [Cmd.delCmd (if origClient then none else some 0) key]))
    ∧ (∀ k2 : String, (storeDel store key).lookup k2
        = if k2 = key then none else store.lookup k2)
    ∧ (([Cmd.delCmd (if origClient then none else some 0) key] : List (Cmd α)).filter isSetCmd
        = []) := by
  have h0 : pyInt (0 : ℚ) = 0 := by norm_num [pyInt]
  have hsel : get_next_client_index N true [] (pick 0) = some 0 := by
    unfold get_next_client_index
    rw [if_neg (by simp), if_pos (Or.inl rfl)]
  refine ⟨?_, rfl, fun k2 => lookup_storeDel store key k2, by simp [isSetCmd]⟩
  cases origClient with
  | true =>
    cases hsk : storeHasKey store key <;>
      simp [setLoop, h0, delete_model, hsk]
  | false =>
    cases hsk : storeHasKey store key <;>
      simp [setLoop, hsel, h0, delete_model, hsk]

/-- C7: `set(k, v, ttl)` with `nx = true` and a finite requested timeout that
is non-positive once converted to milliseconds performs no mutation: it
issues only the `EXISTS` probe of `has_key`, leaves the store (hence the
key's value and expiration) unchanged, and returns the negation of whether
the key currently exists. -/
theorem set_nonpositive_nx_probe (N : Nat) (rro origClient : Bool) (fails : Nat → Bool)
    (pick : Nat → Nat) (key : String) (val : α) (xx : Bool)
    (store : Store (α × Option Int)) (fuel : Nat) (t : ℚ)
    (h : pyInt (t * 1000) ≤ 0) :
    setLoop N rro origClient fails pick key val true xx (fuel + 1) (some t) [] 0 store []
      = some (.ret (!storeHasKey store key), store,
          [Cmd.existsCmd (if origClient then none else some 0) key]) := by
  have hsel : get_next_client_index N true [] (pick 0) = some 0 := by
    unfold get_next_client_index
    rw [if_neg (by simp), if_pos (Or.inl rfl)]
  cases origClient with
  | true => simp [setLoop, if_pos h, has_key_model]
  | false => simp [setLoop, hsel, if_pos h, has_key_model]

/-- C7 witness: `set(k, v, ttl=-5, nx=true)` on an existing key returns
`false` and leaves the store untouched. -/
theorem set_nonpositive_nx_probe_witness :
    setLoop 1 false false (fun _ => false) (fun _ => 0) "k" () true false 1 (some (-5)) [] 0
        [("k", ((), some 7))] []
      = some (.ret false, [("k", ((), some 7))], [Cmd.existsCmd (some 0) "k"]) := by
  have h : pyInt ((-5 : ℚ) * 1000) ≤ 0 := by
    rw [show ((-5 : ℚ) * 1000) = ((-5000 : Int) : ℚ) by norm_num, pyInt_intCast]
    omega
  have hmain := set_nonpositive_nx_probe 1 false false (fun _ => false) (fun _ => 0) "k" ()
    false [("k", ((), some 7))] 0 (-5) h
  simpa [storeHasKey, List.lookup] using hmain

/-- C1: encode/decode round-trip.  For any serializer whose `loads` inverts
`dumps` and any compressor whose decompression (with the recoverable
"not compressed" signal treated as pass-through) inverts `compress`:
a value whose serialized-and-compressed byte form does not parse as an
integer literal decodes back to itself (non-boolean integers round-trip
unconditionally through the raw-integer fast path); in the one excluded
case — a non-integer value whose byte form parses as an integer literal —
decoding yields that integer instead. -/
theorem encode_decode_roundtrip (S : Serializer α) (C : Compressor)
    (h1 : ∀ v : Value α, S.loads (S.dumps v) = v)
    (h2 : ∀ bs : List Char, decompressOr C (C.compress bs) = bs)
    (v : Value α) :
    (parseIntBytes (C.compress (S.dumps v)) = none → decode S C (encode S C v) = v)
    ∧ (∀ n : Int, (∀ k : Int, v ≠ .vint k) →
        parseIntBytes (C.compress (S.dumps v)) = some n →
        decode S C (encode S C v) = .vint n) := by
  cases v with
  | vint k =>
    exact ⟨fun _ => rfl, fun n hk _ => absurd rfl (hk k)⟩
  | vbool b =>
    refine ⟨fun hp => ?_, fun n _ hp => ?_⟩
    · simp [encode, decode, hp, h2, h1]
    · simp [encode, decode, hp]
  | vother a =>
    refine ⟨fun hp => ?_, fun n _ hp => ?_⟩
    · simp [encode, decode, hp, h2, h1]
    · simp [encode, decode, hp]

/-- A concrete serializer used to witness C1: a tag character followed by a
payload (`vint` payloads are unary so the decimal parser never sees digits). -/
def wDumps : Value Unit → List Char
  | .vbool b => ['B', if b then '1' else '0']
  | .vint n =>
    if n < 0 then 'I' :: '-' :: List.replicate n.natAbs 'x'
    else 'I' :: '+' :: List.replicate n.natAbs 'x'
  | .vother _ => ['O']

/-- Inverse of `wDumps`. -/
def wLoads : List Char → Value Unit
  | 'B' :: c :: _ => .vbool (c == '1')
  | 'I' :: '-' :: r => .vint (-(r.length : Int))
  | 'I' :: '+' :: r => .vint ((r.length : Int))
  | _ => .vother ()

/-- A concrete compressor used to witness C1: prepend a `'Z'` marker;
decompression strips it and signals "not compressed" otherwise. -/
def wCompressor : Compressor where
  compress bs := 'Z' :: bs
  decompress bs :=
    match bs with
    | 'Z' :: r => .ok r
    | _ => .error ()

theorem wLoads_wDumps (v : Value Unit) : wLoads (wDumps v) = v := by
  cases v with
  | vbool b => cases b <;> simp [wDumps, wLoads]
  | vint n =>
    rcases lt_or_le n 0 with h | h
    · simp only [wDumps, if_pos h, wLoads, List.length_replicate]
      congr 1
      omega
    · simp only [wDumps, if_neg (not_lt.mpr h), wLoads, List.length_replicate]
      congr 1
      omega
  | vother a => simp [wDumps, wLoads]

theorem wDecompress_wCompress (bs : List Char) :
    decompressOr wCompressor (wCompressor.compress bs) = bs := rfl

/-- C1 witness: the round-trip theorem applied to the concrete codec at
`v = vbool true`, whose compressed byte form `"ZB1"` does not parse as an
integer literal. -/
theorem encode_decode_roundtrip_witness :
    decode ⟨wDumps, wLoads⟩ wCompressor (encode ⟨wDumps, wLoads⟩ wCompressor (.vbool true))
      = .vbool true :=
  (encode_decode_roundtrip ⟨wDumps, wLoads⟩ wCompressor wLoads_wDumps
    wDecompress_wCompress (.vbool true)).1 (by decide)
